import Mathlib

/-!
Verification of the HAR inspector's extraction and filtering engine
(`har_inspector/parser.py`) against its natural-language specification.

The Python source is shallowly embedded below.  Documents are modelled at
the schema granularity the specification fixes (§1 of the spec declares
"no schema validation of the HAR format beyond tolerating missing optional
fields"): every HAR field is optional, and when present it carries the type
the code expects.  Python library calls that the code relies on are
modelled as follows:

* `urllib.parse.urlparse` is embedded concretely (`urlparse` below),
  following CPython's `urlsplit`/`urlparse` restricted to the three
  components the code reads (`scheme`, `netloc`, `path`), including the
  `ValueError("Invalid IPv6 URL")` raise on a mismatched square bracket in
  the authority.  The newer (CPython >= 3.11) bracketed-host validation
  and the NFKC netloc check (which only fires on non-ASCII authorities)
  are not modelled.
* `re.search` (only its truthiness is used), `json.loads` (where `none`
  models a raised `JSONDecodeError`) and `json.dump` of a record list are
  kept abstract as fields of `PyLibs`, since the code treats them as black
  boxes.

Raising Python code is embedded with `Except PyErr`.
-/

/-- Decoded Python/JSON values, as produced by `json.loads`. -/
inductive Json where
  | null
  | bool (b : Bool)
  | num (n : Int)
  | str (s : String)
  | arr (elems : List Json)
  | obj (fields : List (String × Json))

/-- Python exceptions that the embedded code can raise. -/
inductive PyErr where
  | valueError (msg : String)
  | fileNotFoundError (msg : String)
  | permissionError (msg : String)
deriving DecidableEq

/-- One `{"name": ..., "value": ...}` element of a HAR header or
query-string list; both fields are optional (`.get` with default `''`). -/
structure NameValue where
  name? : Option String := none
  value? : Option String := none

/-- The optional `postData` object of a HAR request. -/
structure PostData where
  text? : Option String := none

/-- A HAR request object; every field the code reads is optional. -/
structure Request where
  method? : Option String := none
  url? : Option String := none
  headers : List NameValue := []
  queryString : List NameValue := []
  postData? : Option PostData := none

/-- A HAR response object. -/
structure Response where
  status? : Option Int := none
  bodySize? : Option Int := none

/-- One HAR transaction entry. -/
structure Entry where
  request? : Option Request := none
  response? : Option Response := none
  time? : Option Int := none

/-- The `log` object of a HAR document. -/
structure LogData where
  entries? : Option (List Entry) := none

/-- A decoded HAR document as the engine accesses it. -/
structure HarData where
  log? : Option LogData := none

/-- The scheme/netloc/path triple of `urllib.parse.urlparse` that the
code reads. -/
structure UrlParts where
  scheme : String
  netloc : String
  path : String
deriving DecidableEq

/-- Characters allowed in a URL scheme (`urllib.parse.scheme_chars`). -/
def schemeChars : List Char :=
  "abcdefghijklmnopqrstuvwxyzABCDEFGHIJKLMNOPQRSTUVWXYZ0123456789+-.".toList

/-- ASCII lower-casing, as `str.lower` behaves on the all-ASCII scheme. -/
def asciiLower (c : Char) : Char :=
  if 'A' ≤ c ∧ c ≤ 'Z' then Char.ofNat (c.toNat + 32) else c

/-- Scheme splitting step of CPython `urlsplit`: strip `scheme:` when the
text before the first colon starts with an ASCII letter and consists of
scheme characters only. -/
def splitScheme (url : List Char) : List Char × List Char :=
  match url.findIdx? (· == ':') with
  | some i =>
    if 0 < i ∧ (url.headD ' ').isAlpha = true
        ∧ (url.take i).all (fun c => schemeChars.contains c) = true then
      ((url.take i).map asciiLower, url.drop (i + 1))
    else
      ([], url)
  | none => ([], url)

/-- Netloc splitting step of CPython `_splitnetloc`: after the leading
`//`, the netloc runs up to the first `/`, `?` or `#`. -/
def splitNetloc (url : List Char) : List Char × List Char :=
  let rest := url.drop 2
  let delim := rest.findIdx (fun c => c == '/' || c == '?' || c == '#')
  (rest.take delim, rest.drop delim)

/-- Drop a `#fragment` and then a `?query` suffix, as `urlsplit` does
before returning the path. -/
def stripFragQuery (url : List Char) : List Char :=
  (url.takeWhile (· != '#')).takeWhile (· != '?')

/-- CPython `urlsplit`, restricted to the components the code reads.
Models the removal of tab/CR/LF, scheme and netloc splitting, the
`ValueError("Invalid IPv6 URL")` raise on a mismatched bracket, and
fragment/query stripping. -/
def urlsplit (urlStr : String) : Except PyErr UrlParts :=
  let url0 := urlStr.toList.filter (fun c => !(c == '\t' || c == '\r' || c == '\n'))
  let sp := splitScheme url0
  let scheme := sp.1
  let url1 := sp.2
  if url1.take 2 = ['/', '/'] then
    let nl := splitNetloc url1
    let netloc := nl.1
    let url2 := nl.2
    if (netloc.contains '[' && !(netloc.contains ']'))
        || (netloc.contains ']' && !(netloc.contains '[')) then
      .error (.valueError "Invalid IPv6 URL")
    else
      .ok ⟨String.mk scheme, String.mk netloc, String.mk (stripFragQuery url2)⟩
  else
    .ok ⟨String.mk scheme, "", String.mk (stripFragQuery url1)⟩

/-- Schemes for which `urlparse` splits `;parameters` off the path
(`urllib.parse.uses_params`). -/
def usesParams : List String :=
  ["", "ftp", "hdl", "prospero", "http", "imap", "https", "shttp", "rtsp",
   "rtspu", "sip", "sips", "mms", "sftp", "tel"]

/-- Index of the last `/` in `l`; only meaningful when one is present. -/
def lastSlashIdx (l : List Char) : Nat :=
  l.length - 1 - l.reverse.findIdx (· == '/')

/-- CPython `_splitparams`, keeping only the path part before `;`.
Only called when a `;` is present. -/
def splitparamsPath (path : List Char) : List Char :=
  if path.contains '/' then
    let j := lastSlashIdx path
    match (path.drop j).findIdx? (· == ';') with
    | none => path
    | some k => path.take (j + k)
  else
    path.take (path.findIdx (· == ';'))

/-- CPython `urlparse`, restricted to scheme/netloc/path: `urlsplit`
followed by parameter splitting for schemes in `uses_params`. -/
def urlparse (u : String) : Except PyErr UrlParts :=
  match urlsplit u with
  | .error e => .error e
  | .ok parts =>
    if parts.scheme ∈ usesParams ∧ parts.path.toList.contains ';' = true then
      .ok { parts with path := String.mk (splitparamsPath parts.path.toList) }
    else
      .ok parts

/-- The canonical endpoint record built for each entry that passes all
active filters (the `endpoint_info` dictionary of `get_endpoints`). -/
structure Endpoint where
  url : String
  method : String
  protocol : String
  domain : String
  path : String
  query_params : List (String × String)
  headers : List (String × String)
  post_data : Option Json
  status_code : Int
  response_size : Int
  time : Int

/-- Abstracted Python library functions used by the engine.
`reSearch pat s` is the truthiness of `re.search(pat, s)`;
`jsonLoads s` is `some v` when `json.loads(s)` returns `v` and `none`
when it raises; `jsonDump eps` is the text `json.dump(eps, f, indent=2)`
writes. -/
structure PyLibs where
  reSearch : String → String → Bool
  jsonLoads : String → Option Json
  jsonDump : List Endpoint → String

/-- The optional filter arguments of `get_endpoints`, with their Python
defaults (`None`). -/
structure FilterArgs where
  domain : Option String := none
  method : Option String := none
  status_code : Option Int := none
  path_pattern : Option String := none

/-- Python truthiness of an `Optional[str]`: `None` and `''` are falsy. -/
def strTruthy : Option String → Bool
  | none => false
  | some s => !s.isEmpty

/-- Python truthiness of an `Optional[int]`: `None` and `0` are falsy. -/
def intTruthy : Option Int → Bool
  | none => false
  | some n => n != 0

/-- Models `entry.get('request', {})`. -/
def entryRequest (e : Entry) : Request := e.request?.getD {}

/-- Models `entry.get('response', {})`. -/
def entryResponse (e : Entry) : Response := e.response?.getD {}

/-- Models `request.get('url', '')`. -/
def entryUrl (e : Entry) : String := (entryRequest e).url?.getD ""

/-- Models `request.get('method', '')`. -/
def entryMethod (e : Entry) : String := (entryRequest e).method?.getD ""

/-- Models `response.get('status', 0)`. -/
def entryStatus (e : Entry) : Int := (entryResponse e).status?.getD 0

/-- Assignment `d[k] = v` into an insertion-ordered Python dict: an
existing key keeps its position and gets the new value, a new key is
appended. -/
def pyDictSet (d : List (String × String)) (k v : String) : List (String × String) :=
  if d.any (fun p => p.1 == k) then
    d.map (fun p => if p.1 == k then (k, v) else p)
  else
    d ++ [(k, v)]

/-- The header / query-string flattening loops of `get_endpoints`:
a left fold of `d[name] = value` with `''` defaults, so later same-named
entries overwrite earlier ones. -/
def flattenPairs (l : List NameValue) : List (String × String) :=
  l.foldl (fun d nv => pyDictSet d (nv.name?.getD "") (nv.value?.getD "")) []

/-- Construction of the `endpoint_info` record for one entry from its
parsed URL (lines 84-117 of `parser.py`). -/
def buildEndpoint (L : PyLibs) (e : Entry) (parsed : UrlParts) : Endpoint :=
  { url := entryUrl e,
    method := entryMethod e,
    protocol := parsed.scheme,
    domain := parsed.netloc,
    path := parsed.path,
    query_params := flattenPairs (entryRequest e).queryString,
    headers := flattenPairs (entryRequest e).headers,
    post_data := ((entryRequest e).postData?).map (fun pd =>
      let t := pd.text?.getD ""
      match L.jsonLoads t with
      | some v => v
      | none => Json.str t),
    status_code := entryStatus e,
    response_size := (entryResponse e).bodySize?.getD 0,
    time := e.time?.getD 0 }

/-- One iteration of the `get_endpoints` loop body: parse the URL, run
the four guarded `continue` checks in source order, and either skip the
entry (`none`) or build its record. -/
def processEntry (L : PyLibs) (fil : FilterArgs) (e : Entry) : Except PyErr (Option Endpoint) :=
  match urlparse (entryUrl e) with
  | .error err => .error err
  | .ok parsed =>
    if strTruthy fil.domain && (parsed.netloc != fil.domain.getD "") then .ok none
    else if strTruthy fil.method && (entryMethod e != fil.method.getD "") then .ok none
    else if intTruthy fil.status_code && (entryStatus e != fil.status_code.getD 0) then .ok none
    else if strTruthy fil.path_pattern && !(L.reSearch (fil.path_pattern.getD "") parsed.path) then .ok none
    else .ok (some (buildEndpoint L e parsed))

/-- The accumulation loop of `get_endpoints` over the entry list; a raise
from URL parsing aborts the whole call. -/
def extractLoop (L : PyLibs) (fil : FilterArgs) : List Entry → Except PyErr (List Endpoint)
  | [] => .ok []
  | e :: es =>
    match processEntry L fil e with
    | .error err => .error err
    | .ok r =>
      match extractLoop L fil es with
      | .error err => .error err
      | .ok rest => .ok (match r with | some ep => ep :: rest | none => rest)

/-- `HarParser.get_endpoints`: the guard on missing `log`/`entries`
followed by the extraction loop. -/
def getEndpoints (L : PyLibs) (har : HarData) (fil : FilterArgs) : Except PyErr (List Endpoint) :=
  match har.log? with
  | none => .ok []
  | some lg =>
    match lg.entries? with
    | none => .ok []
    | some entries => extractLoop L fil entries

/-- The entry list the engine walks: empty when `log` or `entries` is
missing. -/
def entriesOf (har : HarData) : List Entry :=
  match har.log? with
  | none => []
  | some lg =>
    match lg.entries? with
    | none => []
    | some entries => entries

/-- The accumulation loop of `get_unique_domains` (`domains.add(...)`). -/
def domainsLoop : List Entry → Finset String → Except PyErr (Finset String)
  | [], acc => .ok acc
  | e :: es, acc =>
    match urlparse (entryUrl e) with
    | .error err => .error err
    | .ok parsed => domainsLoop es (insert parsed.netloc acc)

/-- `HarParser.get_unique_domains`. -/
def getUniqueDomains (har : HarData) : Except PyErr (Finset String) :=
  match har.log? with
  | none => .ok ∅
  | some lg =>
    match lg.entries? with
    | none => .ok ∅
    | some entries => domainsLoop entries ∅

/-- The default API path patterns of `get_api_endpoints`. -/
def defaultApiPatterns : List String :=
  ["/api/", "/v\\d+/", "/rest/", "/graphql", "/gql", "\\.json$"]

/-- `HarParser.get_api_endpoints`: join the pattern list (the default set
when the argument is `None`) with `|` and delegate to `get_endpoints`. -/
def getApiEndpoints (L : PyLibs) (har : HarData) (apiPatterns : Option (List String)) :
    Except PyErr (List Endpoint) :=
  let pats := match apiPatterns with
    | none => defaultApiPatterns
    | some ps => ps
  getEndpoints L har { path_pattern := some (String.intercalate "|" pats) }

/-- The four filter predicates of the `get_endpoints` loop.  Each value
names one of the guarded `continue` checks. -/
inductive Check where
  | dom
  | meth
  | stat
  | patt
deriving DecidableEq

/-- Whether one filter predicate lets an entry through (the negation of
its `continue` guard in `get_endpoints`). -/
def checkPass (L : PyLibs) (fil : FilterArgs) (e : Entry) (parsed : UrlParts) : Check → Bool
  | .dom => !(strTruthy fil.domain && (parsed.netloc != fil.domain.getD ""))
  | .meth => !(strTruthy fil.method && (entryMethod e != fil.method.getD ""))
  | .stat => !(intTruthy fil.status_code && (entryStatus e != fil.status_code.getD 0))
  | .patt => !(strTruthy fil.path_pattern && !(L.reSearch (fil.path_pattern.getD "") parsed.path))

/-- The source order of the four checks in `get_endpoints`. -/
def sourceCheckOrder : List Check := [.dom, .meth, .stat, .patt]

/-- Conjunction of all active filter predicates for an entry whose URL
parsed to `parsed`. -/
def passB (L : PyLibs) (fil : FilterArgs) (e : Entry) (parsed : UrlParts) : Bool :=
  sourceCheckOrder.all (checkPass L fil e parsed)

/-- Whether an entry passes all active filters; propagates the URL-parse
raise. -/
def entryPasses (L : PyLibs) (fil : FilterArgs) (e : Entry) : Except PyErr Bool :=
  match urlparse (entryUrl e) with
  | .error err => .error err
  | .ok parsed => .ok (passB L fil e parsed)

/-- Boolean form of `entryPasses`, treating a URL-parse raise as not
passing; used to phrase the passing subsequence of an entry list. -/
def entryPassesB (L : PyLibs) (fil : FilterArgs) (e : Entry) : Bool :=
  ((entryPasses L fil e).toOption.getD false)

/-- The record `get_endpoints` builds for an entry, independent of any
filter; propagates the URL-parse raise. -/
def mkEndpoint (L : PyLibs) (e : Entry) : Except PyErr Endpoint :=
  match urlparse (entryUrl e) with
  | .error err => .error err
  | .ok parsed => .ok (buildEndpoint L e parsed)

/-- The filter predicates restated against the fields of an output
record (record-level filtering). -/
def recordPasses (L : PyLibs) (fil : FilterArgs) (ep : Endpoint) : Bool :=
  (!(strTruthy fil.domain && (ep.domain != fil.domain.getD ""))) &&
  (!(strTruthy fil.method && (ep.method != fil.method.getD ""))) &&
  (!(intTruthy fil.status_code && (ep.status_code != fil.status_code.getD 0))) &&
  (!(strTruthy fil.path_pattern && !(L.reSearch (fil.path_pattern.getD "") ep.path)))

/-- Variant of the loop body that evaluates the four filter predicates in
an arbitrary order `order` instead of the source order. -/
def processEntryOrdered (L : PyLibs) (order : List Check) (fil : FilterArgs) (e : Entry) :
    Except PyErr (Option Endpoint) :=
  match urlparse (entryUrl e) with
  | .error err => .error err
  | .ok parsed =>
    if order.all (checkPass L fil e parsed) then .ok (some (buildEndpoint L e parsed))
    else .ok none

/-- Extraction loop over the reordered loop body. -/
def extractLoopOrdered (L : PyLibs) (order : List Check) (fil : FilterArgs) :
    List Entry → Except PyErr (List Endpoint)
  | [] => .ok []
  | e :: es =>
    match processEntryOrdered L order fil e with
    | .error err => .error err
    | .ok r =>
      match extractLoopOrdered L order fil es with
      | .error err => .error err
      | .ok rest => .ok (match r with | some ep => ep :: rest | none => rest)

/-- `get_endpoints` with the filter predicates evaluated in the order
given by `order`. -/
def getEndpointsOrdered (L : PyLibs) (order : List Check) (har : HarData) (fil : FilterArgs) :
    Except PyErr (List Endpoint) :=
  match har.log? with
  | none => .ok []
  | some lg =>
    match lg.entries? with
    | none => .ok []
    | some entries => extractLoopOrdered L order fil entries

/-- Extension extraction of `os.path.splitext(p)[1]` (posix rules): the
part of the basename from its last dot on, unless every character of the
basename before that dot is itself a dot. -/
def splitextExt (p : String) : String :=
  let l := p.toList
  match (l.reverse.findIdx? (· == '.')).map (fun r => l.length - 1 - r) with
  | none => ""
  | some dot =>
    let base := match (l.reverse.findIdx? (· == '/')).map (fun r => l.length - 1 - r) with
      | none => 0
      | some sep => sep + 1
    if dot < base then ""
    else if ((l.drop base).take (dot - base)).all (· == '.') then ""
    else String.mk (l.drop dot)

/-- Quoting of one CSV field under the default `csv` module dialect:
a field containing the delimiter, the quote character or a line-break
character is wrapped in double quotes, with inner quotes doubled. -/
def csvQuoteField (s : String) : String :=
  if s.toList.any (fun c => c == ',' || c == '"' || c == '\r' || c == '\n') then
    "\"" ++ String.join (s.toList.map (fun c =>
      if c == '"' then "\"\"" else String.singleton c)) ++ "\""
  else s

/-- One CSV line under the default dialect: comma-joined quoted fields
followed by the `\r\n` terminator. -/
def csvLine (fields : List String) : String :=
  String.intercalate "," (fields.map csvQuoteField) ++ "\r\n"

/-- The flattening of one record for CSV export (the `flat_ep` dictionary
of `export_endpoints`), with `str()` applied to the integer fields as the
`csv` writer does. -/
def flatFields (ep : Endpoint) : List (String × String) :=
  [("url", ep.url), ("method", ep.method), ("protocol", ep.protocol),
   ("domain", ep.domain), ("path", ep.path),
   ("status_code", toString ep.status_code),
   ("response_size", toString ep.response_size), ("time", toString ep.time)]

/-- ASCII lower-casing of a string, as `str.lower` behaves on the ASCII
file extensions the code compares against. -/
def strLower (s : String) : String := String.mk (s.toList.map asciiLower)

/-- `HarParser.export_endpoints`, returning the text written to the
output file (or the `ValueError` raised on an unsupported extension). -/
def exportEndpoints (L : PyLibs) (endpoints : List Endpoint) (outputFile : String) :
    Except PyErr String :=
  let fileExt := strLower (splitextExt outputFile)
  if fileExt = ".json" then
    .ok (L.jsonDump endpoints)
  else if fileExt = ".csv" then
    if endpoints.isEmpty then
      .ok "No endpoints found"
    else
      let flattened := endpoints.map flatFields
      let fieldnames := (flattened.headD []).map Prod.fst
      .ok (csvLine fieldnames ++ String.join (flattened.map (fun row => csvLine (row.map Prod.snd))))
  else
    .error (.valueError ("Unsupported file format: " ++ fileExt))

/-- Outcome of opening and reading the named source file:
it is absent, it exists but is unreadable, or it has text content. -/
inductive Source where
  | absent
  | unreadable
  | content (s : String)

/-- `HarParser._load_har_file`: read the source and decode it as JSON.
A missing file raises `FileNotFoundError` (re-raised by the handler), a
`JSONDecodeError` is turned into `ValueError`, and any other exception
from `open` — in particular the `PermissionError` of an unreadable file —
propagates uncaught. -/
def loadHarFile (L : PyLibs) (path : String) (src : Source) : Except PyErr Json :=
  match src with
  | .absent => .error (.fileNotFoundError ("HAR file not found: " ++ path))
  | .unreadable => .error (.permissionError ("Permission denied: " ++ path))
  | .content s =>
    match L.jsonLoads s with
    | none => .error (.valueError ("Invalid HAR file format: " ++ path))
    | some v => .ok v

/-- Whether a load outcome is the spec's `SourceNotFound` error (the
`FileNotFoundError` the code re-raises). -/
def isSourceNotFound : Except PyErr Json → Bool
  | .error (.fileNotFoundError _) => true
  | _ => false

/-- Whether a load outcome is the spec's `InvalidFormat` error (the
`ValueError` the code raises on a JSON decode failure). -/
def isInvalidFormat : Except PyErr Json → Bool
  | .error (.valueError _) => true
  | _ => false

/-- Concrete instantiation of the abstract library functions, used to
evaluate theorems on concrete inputs: `reSearch` always matches and
`jsonLoads` always fails (keeping post data as raw text). -/
def exampleLibs : PyLibs := ⟨fun _ _ => true, fun _ => none, fun _ => ""⟩

/-- Concrete library instantiation whose `jsonLoads` always succeeds with
`Json.null`. -/
def exampleLibsJson : PyLibs := ⟨fun _ _ => true, fun _ => some Json.null, fun _ => ""⟩

/-- First sample transaction of the specification's §8 example: a GET to
`https://api.example.com/v1/users?page=1`. -/
def entry1 : Entry :=
  ⟨some ⟨some "GET", some "https://api.example.com/v1/users?page=1",
     [⟨some "Accept", some "application/json"⟩], [⟨some "page", some "1"⟩], none⟩,
   some ⟨some 200, some 1024⟩, some 150⟩

/-- Second sample transaction of the specification's §8 example: a POST to
`https://example.com/login` with a body. -/
def entry2 : Entry :=
  ⟨some ⟨some "POST", some "https://example.com/login",
     [⟨some "Content-Type", some "application/json"⟩], [], some ⟨some "x"⟩⟩,
   some ⟨some 200, some 512⟩, some 200⟩

/-- Sample document holding `entry1` and `entry2`. -/
def har1 : HarData := ⟨some ⟨some [entry1, entry2]⟩⟩

/-- The record `get_endpoints` builds for `entry1` under `exampleLibs`. -/
def ep1 : Endpoint :=
  ⟨"https://api.example.com/v1/users?page=1", "GET", "https", "api.example.com",
   "/v1/users", [("page", "1")], [("Accept", "application/json")], none, 200, 1024, 150⟩

/-- The record `get_endpoints` builds for `entry2` under `exampleLibs`. -/
def ep2 : Endpoint :=
  ⟨"https://example.com/login", "POST", "https", "example.com", "/login", [],
   [("Content-Type", "application/json")], some (Json.str "x"), 200, 512, 200⟩

/-- Document with one entry whose request URL `http://[` makes
`urlparse` raise `ValueError("Invalid IPv6 URL")`. -/
def harBad : HarData :=
  ⟨some ⟨some [⟨some ⟨none, some "http://[", [], [], none⟩, none, none⟩]⟩⟩

lemma processEntry_eq_error (L : PyLibs) (fil : FilterArgs) (e : Entry) (err : PyErr)
    (h : urlparse (entryUrl e) = .error err) :
    processEntry L fil e = .error err := by
  unfold processEntry
  rw [h]

lemma processEntry_eq_ok (L : PyLibs) (fil : FilterArgs) (e : Entry) (parsed : UrlParts)
    (h : urlparse (entryUrl e) = .ok parsed) :
    processEntry L fil e =
      .ok (if passB L fil e parsed then some (buildEndpoint L e parsed) else none) := by
  unfold processEntry passB sourceCheckOrder
  rw [h]
  simp only [List.all_cons, List.all_nil, Bool.and_true, checkPass]
  cases h1 : strTruthy fil.domain && (parsed.netloc != fil.domain.getD "") <;>
    cases h2 : strTruthy fil.method && (entryMethod e != fil.method.getD "") <;>
      cases h3 : intTruthy fil.status_code && (entryStatus e != fil.status_code.getD 0) <;>
        cases h4 : strTruthy fil.path_pattern && !(L.reSearch (fil.path_pattern.getD "") parsed.path) <;>
          simp [h1, h2, h3, h4]

lemma entryPasses_eq_ok (L : PyLibs) (fil : FilterArgs) (e : Entry) (parsed : UrlParts)
    (h : urlparse (entryUrl e) = .ok parsed) :
    entryPasses L fil e = .ok (passB L fil e parsed) := by
  unfold entryPasses
  rw [h]

lemma entryPassesB_eq (L : PyLibs) (fil : FilterArgs) (e : Entry) (parsed : UrlParts)
    (h : urlparse (entryUrl e) = .ok parsed) :
    entryPassesB L fil e = passB L fil e parsed := by
  unfold entryPassesB
  rw [entryPasses_eq_ok L fil e parsed h]
  rfl

lemma mkEndpoint_eq_ok (L : PyLibs) (e : Entry) (parsed : UrlParts)
    (h : urlparse (entryUrl e) = .ok parsed) :
    mkEndpoint L e = .ok (buildEndpoint L e parsed) := by
  unfold mkEndpoint
  rw [h]

lemma extractLoop_ok (L : PyLibs) (fil : FilterArgs) (es : List Entry) (l : List Endpoint)
    (h : extractLoop L fil es = .ok l) :
    List.Forall₂ (fun e ep => mkEndpoint L e = Except.ok ep)
      (es.filter (entryPassesB L fil)) l := by
  induction es generalizing l with
  | nil =>
    simp only [extractLoop, Except.ok.injEq] at h
    subst h
    simp
  | cons e es ih =>
    cases hp : urlparse (entryUrl e) with
    | error err =>
      rw [extractLoop, processEntry_eq_error L fil e err hp] at h
      cases h
    | ok parsed =>
      rw [extractLoop, processEntry_eq_ok L fil e parsed hp] at h
      cases hrest : extractLoop L fil es with
      | error err =>
        rw [hrest] at h
        cases h
      | ok rest =>
        rw [hrest] at h
        simp only [List.filter_cons, entryPassesB_eq L fil e parsed hp]
        cases hpass : passB L fil e parsed with
        | false =>
          rw [hpass] at h
          simp only [Except.ok.injEq] at h
          subst h
          simpa using ih rest hrest
        | true =>
          rw [hpass] at h
          simp only [Except.ok.injEq] at h
          subst h
          simp only [if_pos rfl]
          exact List.Forall₂.cons (mkEndpoint_eq_ok L e parsed hp) (ih rest hrest)

lemma getEndpoints_eq_extractLoop (L : PyLibs) (har : HarData) (fil : FilterArgs) :
    getEndpoints L har fil = extractLoop L fil (entriesOf har) := by
  obtain ⟨lg?⟩ := har
  cases lg? with
  | none => rfl
  | some lg =>
    obtain ⟨es?⟩ := lg
    cases es? with
    | none => rfl
    | some es => rfl

lemma getUniqueDomains_eq_domainsLoop (har : HarData) :
    getUniqueDomains har = domainsLoop (entriesOf har) ∅ := by
  obtain ⟨lg?⟩ := har
  cases lg? with
  | none => rfl
  | some lg =>
    obtain ⟨es?⟩ := lg
    cases es? with
    | none => rfl
    | some es => rfl

/-- C1: for every loaded document and every filter combination, the
output of `get_endpoints` is exactly the passing subsequence of the
document's entry list — one record per passing entry, in document order,
each record built from exactly that entry (no merging, no splitting). -/
theorem getEndpoints_passing_subsequence (L : PyLibs) (har : HarData) (fil : FilterArgs)
    (l : List Endpoint) (h : getEndpoints L har fil = .ok l) :
    List.Forall₂ (fun e ep => mkEndpoint L e = Except.ok ep)
      ((entriesOf har).filter (entryPassesB L fil)) l := by
  rw [getEndpoints_eq_extractLoop] at h
  exact extractLoop_ok L fil (entriesOf har) l h

/-- Witness for C1 at the sample document with the empty filter set. -/
theorem getEndpoints_passing_subsequence_witness :
    List.Forall₂ (fun e ep => mkEndpoint exampleLibs e = Except.ok ep)
      ((entriesOf har1).filter (entryPassesB exampleLibs {})) [ep1, ep2] :=
  getEndpoints_passing_subsequence exampleLibs har1 {} [ep1, ep2] rfl

/-- C2: a document with no `log` key, or whose `log` has no `entries`
key, yields the empty record list from `get_endpoints` and the empty set
from `get_unique_domains`, and neither call raises. -/
theorem getEndpoints_missing_entries_empty (L : PyLibs) (har : HarData) (fil : FilterArgs)
    (h : har.log? = none ∨ ∃ lg, har.log? = some lg ∧ lg.entries? = none) :
    getEndpoints L har fil = .ok [] ∧ getUniqueDomains har = .ok ∅ := by
  obtain ⟨lg?⟩ := har
  rcases h with h | ⟨lg, hl, he⟩
  · simp only [] at h
    subst h
    exact ⟨rfl, rfl⟩
  · simp only [] at hl
    subst hl
    obtain ⟨es?⟩ := lg
    simp only [] at he
    subst he
    exact ⟨rfl, rfl⟩

/-- Witness for C2 at a document without a `log` key. -/
theorem getEndpoints_missing_entries_empty_witness :
    getEndpoints exampleLibs ⟨none⟩ {} = .ok [] ∧ getUniqueDomains ⟨none⟩ = .ok ∅ :=
  getEndpoints_missing_entries_empty exampleLibs ⟨none⟩ {} (Or.inl rfl)

lemma extractLoop_congr (L : PyLibs) {f1 f2 : FilterArgs}
    (h : ∀ e, processEntry L f1 e = processEntry L f2 e) :
    ∀ es, extractLoop L f1 es = extractLoop L f2 es := by
  intro es
  induction es with
  | nil => rfl
  | cons e es ih => simp only [extractLoop, h e, ih]

lemma getEndpoints_congr (L : PyLibs) {f1 f2 : FilterArgs}
    (h : ∀ e, processEntry L f1 e = processEntry L f2 e) (har : HarData) :
    getEndpoints L har f1 = getEndpoints L har f2 := by
  rw [getEndpoints_eq_extractLoop, getEndpoints_eq_extractLoop]
  exact extractLoop_congr L h _

lemma intTruthy_none : intTruthy none = false := rfl

lemma processEntry_status_sentinel (L : PyLibs) (fil : FilterArgs)
    (hs : intTruthy fil.status_code = false) (e : Entry) :
    processEntry L fil e = processEntry L { fil with status_code := none } e := by
  unfold processEntry
  cases urlparse (entryUrl e) with
  | error err => rfl
  | ok parsed => simp [hs, intTruthy_none]

lemma passB_status (L : PyLibs) (fil : FilterArgs) (e : Entry) (parsed : UrlParts)
    (s : Int) (hs : s ≠ 0) :
    passB L { fil with status_code := some s } e parsed =
      ((entryStatus e == s) && passB L { fil with status_code := none } e parsed) := by
  have hs' : ((s : Int) != 0) = true := bne_iff_ne.mpr hs
  cases h3 : entryStatus e == s with
  | false =>
    simp [passB, sourceCheckOrder, checkPass, intTruthy, hs', bne, h3, Bool.and_left_comm]
    intro h
    exact absurd h hs
  | true =>
    simp [passB, sourceCheckOrder, checkPass, intTruthy, hs', bne, h3, Bool.and_left_comm]

lemma buildEndpoint_status (L : PyLibs) (e : Entry) (parsed : UrlParts) :
    (buildEndpoint L e parsed).status_code = entryStatus e := rfl

lemma extractLoop_status_filter (L : PyLibs) (fil : FilterArgs) (s : Int) (hs : s ≠ 0)
    (es : List Entry) :
    extractLoop L { fil with status_code := some s } es =
      Except.map (List.filter (fun ep => ep.status_code == s))
        (extractLoop L { fil with status_code := none } es) := by
  induction es with
  | nil => rfl
  | cons e es ih =>
    cases hp : urlparse (entryUrl e) with
    | error err =>
      simp only [extractLoop, processEntry_eq_error _ _ _ _ hp]
      rfl
    | ok parsed =>
      simp only [extractLoop, processEntry_eq_ok _ _ _ _ hp, ih,
        passB_status L fil e parsed s hs]
      cases hr : extractLoop L { fil with status_code := none } es with
      | error err => rfl
      | ok rest =>
        cases hpn : passB L { fil with status_code := none } e parsed <;>
          cases hst : entryStatus e == s <;>
            simp [hpn, hst, List.filter_cons, buildEndpoint_status, Except.map]

/-- C3: a status filter of 0 (or `None`) behaves exactly like no status
filter — a response status of 0 can never be selected — and for every
nonzero integer `s` the status filter keeps exactly the otherwise-passing
records whose response status equals `s`. -/
theorem status_filter_zero_sentinel_and_exact :
    (∀ (L : PyLibs) (har : HarData) (fil : FilterArgs),
      fil.status_code = none ∨ fil.status_code = some 0 →
      getEndpoints L har fil = getEndpoints L har { fil with status_code := none }) ∧
    (∀ (L : PyLibs) (har : HarData) (fil : FilterArgs) (s : Int), s ≠ 0 →
      getEndpoints L har { fil with status_code := some s } =
        Except.map (List.filter (fun ep => ep.status_code == s))
          (getEndpoints L har { fil with status_code := none })) := by
  constructor
  · intro L har fil h
    have hs : intTruthy fil.status_code = false := by
      rcases h with h | h <;> simp [h, intTruthy]
    exact getEndpoints_congr L (fun e => processEntry_status_sentinel L fil hs e) har
  · intro L har fil s hs
    rw [getEndpoints_eq_extractLoop, getEndpoints_eq_extractLoop]
    exact extractLoop_status_filter L fil s hs _

/-- Witness for C3: status filter 0 on the sample document equals the
unfiltered call, and status filter 200 equals filtering the unfiltered
records by status 200. -/
theorem status_filter_zero_sentinel_and_exact_witness :
    getEndpoints exampleLibs har1 ⟨none, none, some 0, none⟩ =
      getEndpoints exampleLibs har1 ⟨none, none, none, none⟩ ∧
    getEndpoints exampleLibs har1 ⟨none, none, some 200, none⟩ =
      Except.map (List.filter (fun ep => ep.status_code == 200))
        (getEndpoints exampleLibs har1 ⟨none, none, none, none⟩) :=
  ⟨status_filter_zero_sentinel_and_exact.1 exampleLibs har1 ⟨none, none, some 0, none⟩
      (Or.inr rfl),
   status_filter_zero_sentinel_and_exact.2 exampleLibs har1 ⟨none, none, none, none⟩ 200
      (by decide)⟩

lemma strTruthy_none : strTruthy none = false := rfl

lemma buildEndpoint_domain (L : PyLibs) (e : Entry) (parsed : UrlParts) :
    (buildEndpoint L e parsed).domain = parsed.netloc := rfl

lemma processEntry_domain_sentinel (L : PyLibs) (fil : FilterArgs)
    (hd : strTruthy fil.domain = false) (e : Entry) :
    processEntry L fil e = processEntry L { fil with domain := none } e := by
  unfold processEntry
  cases urlparse (entryUrl e) with
  | error err => rfl
  | ok parsed => simp [hd, strTruthy_none]

lemma passB_domain (L : PyLibs) (fil : FilterArgs) (e : Entry) (parsed : UrlParts)
    (d : String) (hd : d ≠ "") :
    passB L { fil with domain := some d } e parsed =
      ((parsed.netloc == d) && passB L { fil with domain := none } e parsed) := by
  have hd' : d.isEmpty = false := by
    rw [Bool.eq_false_iff]
    intro h
    exact hd ((String.isEmpty_iff d).mp h)
  cases h1 : parsed.netloc == d with
  | false =>
    simp [passB, sourceCheckOrder, checkPass, strTruthy, hd', bne, h1]
  | true =>
    simp [passB, sourceCheckOrder, checkPass, strTruthy, hd', bne, h1]

lemma extractLoop_domain_filter (L : PyLibs) (fil : FilterArgs) (d : String) (hd : d ≠ "")
    (es : List Entry) :
    extractLoop L { fil with domain := some d } es =
      Except.map (List.filter (fun ep => ep.domain == d))
        (extractLoop L { fil with domain := none } es) := by
  induction es with
  | nil => rfl
  | cons e es ih =>
    cases hp : urlparse (entryUrl e) with
    | error err =>
      simp only [extractLoop, processEntry_eq_error _ _ _ _ hp]
      rfl
    | ok parsed =>
      simp only [extractLoop, processEntry_eq_ok _ _ _ _ hp, ih,
        passB_domain L fil e parsed d hd]
      cases hr : extractLoop L { fil with domain := none } es with
      | error err => rfl
      | ok rest =>
        cases hpn : passB L { fil with domain := none } e parsed <;>
          cases hnl : parsed.netloc == d <;>
            simp [hpn, hnl, List.filter_cons, buildEndpoint_domain, Except.map]

/-- Counterexample to C4 as stated: with the domain filter set to the
empty string, `get_endpoints` returns both sample records (the filter is
disabled by Python truthiness), not just the records whose domain equals
the empty string (there are none). -/
theorem domain_filter_empty_string_cex :
    getEndpoints exampleLibs har1 ⟨some "", none, none, none⟩ ≠
      Except.map (List.filter (fun ep => ep.domain == ""))
        (getEndpoints exampleLibs har1 ⟨none, none, none, none⟩) := by
  intro h
  have h1 : getEndpoints exampleLibs har1 ⟨some "", none, none, none⟩ = .ok [ep1, ep2] := rfl
  have h2 : Except.map (List.filter (fun ep => ep.domain == ""))
      (getEndpoints exampleLibs har1 ⟨none, none, none, none⟩) = .ok [] := rfl
  rw [h1, h2] at h
  simp at h

/-- C4 (amended): for every nonempty domain string `d`, `get_endpoints`
with domain filter `d` returns exactly the records of the corresponding
unfiltered extraction whose domain field equals `d` (exact, case-sensitive
string equality); a domain filter equal to the empty string is falsy and
disables domain filtering entirely. -/
theorem domain_filter_exact_refinement :
    (∀ (L : PyLibs) (har : HarData) (fil : FilterArgs) (d : String), d ≠ "" →
      getEndpoints L har { fil with domain := some d } =
        Except.map (List.filter (fun ep => ep.domain == d))
          (getEndpoints L har { fil with domain := none })) ∧
    (∀ (L : PyLibs) (har : HarData) (fil : FilterArgs),
      getEndpoints L har { fil with domain := some "" } =
        getEndpoints L har { fil with domain := none }) := by
  constructor
  · intro L har fil d hd
    rw [getEndpoints_eq_extractLoop, getEndpoints_eq_extractLoop]
    exact extractLoop_domain_filter L fil d hd _
  · intro L har fil
    exact getEndpoints_congr L
      (fun e => processEntry_domain_sentinel L { fil with domain := some "" } rfl e) har

/-- Witness for C4 (amended) at the sample document with the nonempty
domain `api.example.com`. -/
theorem domain_filter_exact_refinement_witness :
    getEndpoints exampleLibs har1 ⟨some "api.example.com", none, none, none⟩ =
      Except.map (List.filter (fun ep => ep.domain == "api.example.com"))
        (getEndpoints exampleLibs har1 ⟨none, none, none, none⟩) :=
  domain_filter_exact_refinement.1 exampleLibs har1 ⟨none, none, none, none⟩
    "api.example.com" (by decide)

lemma all_of_perm {α : Type} (p : α → Bool) {l1 l2 : List α} (h : l1.Perm l2) :
    l1.all p = l2.all p := by
  induction h with
  | nil => rfl
  | cons x _ ih => simp [List.all_cons, ih]
  | swap x y l => simp [List.all_cons, Bool.and_left_comm]
  | trans _ _ ih1 ih2 => rw [ih1, ih2]

lemma processEntryOrdered_eq (L : PyLibs) (order : List Check) (fil : FilterArgs) (e : Entry)
    (horder : order.Perm sourceCheckOrder) :
    processEntryOrdered L order fil e = processEntry L fil e := by
  cases hp : urlparse (entryUrl e) with
  | error err =>
    rw [processEntry_eq_error _ _ _ _ hp]
    unfold processEntryOrdered
    rw [hp]
  | ok parsed =>
    rw [processEntry_eq_ok _ _ _ _ hp]
    simp only [processEntryOrdered, hp, all_of_perm _ horder]
    cases hc : sourceCheckOrder.all (checkPass L fil e parsed) <;> simp [passB, hc]

lemma extractLoopOrdered_eq (L : PyLibs) (order : List Check) (fil : FilterArgs)
    (horder : order.Perm sourceCheckOrder) :
    ∀ es, extractLoopOrdered L order fil es = extractLoop L fil es := by
  intro es
  induction es with
  | nil => rfl
  | cons e es ih =>
    simp only [extractLoopOrdered, extractLoop, processEntryOrdered_eq L order fil e horder, ih]

lemma recordPasses_build (L : PyLibs) (fil : FilterArgs) (e : Entry) (parsed : UrlParts) :
    recordPasses L fil (buildEndpoint L e parsed) = passB L fil e parsed := by
  simp only [recordPasses, buildEndpoint, passB, sourceCheckOrder, checkPass,
    List.all_cons, List.all_nil, Bool.and_true, Bool.and_assoc]

lemma extractLoop_idem (L : PyLibs) (fil : FilterArgs) (es : List Entry) (l : List Endpoint)
    (h : extractLoop L fil es = .ok l) :
    l.filter (recordPasses L fil) = l := by
  induction es generalizing l with
  | nil =>
    simp only [extractLoop, Except.ok.injEq] at h
    subst h
    rfl
  | cons e es ih =>
    cases hp : urlparse (entryUrl e) with
    | error err =>
      rw [extractLoop, processEntry_eq_error L fil e err hp] at h
      cases h
    | ok parsed =>
      rw [extractLoop, processEntry_eq_ok L fil e parsed hp] at h
      cases hrest : extractLoop L fil es with
      | error err =>
        rw [hrest] at h
        cases h
      | ok rest =>
        rw [hrest] at h
        cases hpass : passB L fil e parsed with
        | false =>
          rw [hpass] at h
          simp only [Except.ok.injEq] at h
          subst h
          exact ih rest hrest
        | true =>
          rw [hpass] at h
          simp only [Except.ok.injEq] at h
          subst h
          simp [List.filter_cons, recordPasses_build L fil e parsed, hpass, ih rest hrest]

lemma getEndpointsOrdered_eq_extractLoop (L : PyLibs) (order : List Check) (har : HarData)
    (fil : FilterArgs) :
    getEndpointsOrdered L order har fil = extractLoopOrdered L order fil (entriesOf har) := by
  obtain ⟨lg?⟩ := har
  cases lg? with
  | none => rfl
  | some lg =>
    obtain ⟨es?⟩ := lg
    cases es? with
    | none => rfl
    | some es => rfl

/-- C5: filtering is idempotent and commutative — re-applying the
record-level filter predicates to the output of `get_endpoints` leaves it
unchanged, and evaluating the four filter predicates in any order yields
the same result as the source order. -/
theorem filtering_idempotent_commutative :
    (∀ (L : PyLibs) (har : HarData) (fil : FilterArgs) (l : List Endpoint),
      getEndpoints L har fil = .ok l → l.filter (recordPasses L fil) = l) ∧
    (∀ (order : List Check), order.Perm sourceCheckOrder →
      ∀ (L : PyLibs) (har : HarData) (fil : FilterArgs),
        getEndpointsOrdered L order har fil = getEndpoints L har fil) := by
  constructor
  · intro L har fil l h
    rw [getEndpoints_eq_extractLoop] at h
    exact extractLoop_idem L fil (entriesOf har) l h
  · intro order horder L har fil
    rw [getEndpointsOrdered_eq_extractLoop, getEndpoints_eq_extractLoop]
    exact extractLoopOrdered_eq L order fil horder _

/-- Witness for C5: record-level re-filtering fixes the sample output,
and evaluating the predicates with domain and method checks swapped
agrees with the source order. -/
theorem filtering_idempotent_commutative_witness :
    List.filter (recordPasses exampleLibs ⟨none, none, none, none⟩) [ep1, ep2] = [ep1, ep2] ∧
    getEndpointsOrdered exampleLibs [Check.meth, Check.dom, Check.stat, Check.patt] har1
        ⟨none, none, none, none⟩ =
      getEndpoints exampleLibs har1 ⟨none, none, none, none⟩ :=
  ⟨filtering_idempotent_commutative.1 exampleLibs har1 ⟨none, none, none, none⟩ [ep1, ep2] rfl,
   filtering_idempotent_commutative.2 [Check.meth, Check.dom, Check.stat, Check.patt]
     (List.Perm.swap Check.dom Check.meth [Check.stat, Check.patt]) exampleLibs har1
     ⟨none, none, none, none⟩⟩

/-- C6: `get_api_endpoints` with the default pattern set equals
`get_endpoints` with no domain/method/status filter and the path pattern
given by the `|`-alternation of the six default patterns, and an
explicitly supplied pattern list fully replaces the default set. -/
theorem getApiEndpoints_refines_getEndpoints :
    (∀ (L : PyLibs) (har : HarData),
      getApiEndpoints L har none =
        getEndpoints L har
          { domain := none, method := none, status_code := none,
            path_pattern := some "/api/|/v\\d+/|/rest/|/graphql|/gql|\\.json$" }) ∧
    String.intercalate "|" defaultApiPatterns = "/api/|/v\\d+/|/rest/|/graphql|/gql|\\.json$" ∧
    (∀ (L : PyLibs) (har : HarData) (pats : List String),
      getApiEndpoints L har (some pats) =
        getEndpoints L har
          { domain := none, method := none, status_code := none,
            path_pattern := some (String.intercalate "|" pats) }) :=
  ⟨fun _ _ => rfl, rfl, fun _ _ _ => rfl⟩

/-- C10: `get_api_endpoints` with an explicitly empty pattern list joins
to the empty pattern string, which is falsy and disables path filtering,
so the call returns the full unfiltered extraction. -/
theorem getApiEndpoints_empty_patterns_unfiltered :
    (∀ (L : PyLibs) (har : HarData),
      getApiEndpoints L har (some []) = getEndpoints L har {}) ∧
    String.intercalate "|" ([] : List String) = "" := by
  refine ⟨fun L har => ?_, rfl⟩
  have h : ∀ e, processEntry L { path_pattern := some "" } e = processEntry L {} e := by
    intro e
    unfold processEntry
    cases urlparse (entryUrl e) with
    | error err => rfl
    | ok parsed => simp [strTruthy, show "".isEmpty = true from rfl]
  exact getEndpoints_congr L h har

lemma extractLoop_total (L : PyLibs) (fil : FilterArgs) (es : List Entry)
    (h : ∀ e ∈ es, (urlparse (entryUrl e)).isOk = true) :
    ∃ l, extractLoop L fil es = .ok l := by
  induction es with
  | nil => exact ⟨[], rfl⟩
  | cons e es ih =>
    cases hp : urlparse (entryUrl e) with
    | error err =>
      have he := h e (List.mem_cons_self e es)
      rw [hp] at he
      cases he
    | ok parsed =>
      obtain ⟨rest, hrest⟩ := ih (fun e' he' => h e' (List.mem_cons_of_mem e he'))
      rw [extractLoop, processEntry_eq_ok _ _ _ _ hp, hrest]
      exact ⟨_, rfl⟩

/-- Counterexample to C7 as stated: a document whose single entry has the
malformed request URL `http://[` makes `get_endpoints` raise the
`ValueError("Invalid IPv6 URL")` of `urllib.parse.urlparse` instead of
degrading to empty components. -/
theorem getEndpoints_urlparse_raise_cex :
    getEndpoints exampleLibs harBad ⟨none, none, none, none⟩ =
      .error (.valueError "Invalid IPv6 URL") := rfl

/-- C7 (amended): URL parsing never raises for request URLs that
`urlparse` accepts (in particular a mismatched square bracket in the
authority raises `ValueError`, which propagates out of `get_endpoints`);
for accepted URLs the path-pattern filter is applied, via the regex
search function, to the parsed URL path component only, and a missing
request object degrades to empty scheme, authority and path components
rather than an error. -/
theorem getEndpoints_url_parsing_graceful :
    (∀ (L : PyLibs) (har : HarData) (fil : FilterArgs),
      (∀ e ∈ entriesOf har, (urlparse (entryUrl e)).isOk = true) →
      ∃ l, getEndpoints L har fil = .ok l) ∧
    (∀ (L : PyLibs) (pat : String) (e : Entry) (parsed : UrlParts), pat ≠ "" →
      urlparse (entryUrl e) = .ok parsed →
      entryPasses L ⟨none, none, none, some pat⟩ e = .ok (L.reSearch pat parsed.path)) ∧
    (∀ e : Entry, e.request? = none → urlparse (entryUrl e) = .ok ⟨"", "", ""⟩) := by
  refine ⟨?_, ?_, ?_⟩
  · intro L har fil h
    rw [getEndpoints_eq_extractLoop]
    exact extractLoop_total L fil (entriesOf har) h
  · intro L pat e parsed hpat hp
    rw [entryPasses_eq_ok _ _ _ _ hp]
    have hpat' : pat.isEmpty = false := by
      rw [Bool.eq_false_iff]
      intro h
      exact hpat ((String.isEmpty_iff pat).mp h)
    simp [passB, sourceCheckOrder, checkPass, strTruthy, intTruthy, hpat']
  · intro e h
    obtain ⟨rq?, rs?, t?⟩ := e
    simp only [] at h
    subst h
    rfl

/-- Witness for C7 (amended): every entry of the sample document has an
accepted URL, so `get_endpoints` returns a value. -/
theorem getEndpoints_url_parsing_graceful_witness :
    ∃ l, getEndpoints exampleLibs har1 ⟨none, none, none, none⟩ = .ok l :=
  getEndpoints_url_parsing_graceful.1 exampleLibs har1 ⟨none, none, none, none⟩ (by decide)

lemma flatFields_fst (ep : Endpoint) :
    (flatFields ep).map Prod.fst =
      ["url", "method", "protocol", "domain", "path", "status_code",
       "response_size", "time"] := rfl

lemma flatFields_snd (ep : Endpoint) :
    (flatFields ep).map Prod.snd =
      [ep.url, ep.method, ep.protocol, ep.domain, ep.path, toString ep.status_code,
       toString ep.response_size, toString ep.time] := rfl

lemma csvLine_header :
    csvLine ["url", "method", "protocol", "domain", "path", "status_code",
      "response_size", "time"] =
    "url,method,protocol,domain,path,status_code,response_size,time\r\n" := rfl

/-- C8: exporting to a `.csv` sink writes the literal text
`No endpoints found` for an empty record sequence (no header row), and
otherwise the fixed header row followed by one data row per record
holding exactly the eight scalar fields in order — `headers`,
`query_params` and `post_data` are dropped. -/
theorem exportEndpoints_csv_projection (L : PyLibs) (endpoints : List Endpoint)
    (outputFile : String) (h : strLower (splitextExt outputFile) = ".csv") :
    exportEndpoints L endpoints outputFile =
      .ok (if endpoints.isEmpty then "No endpoints found"
        else "url,method,protocol,domain,path,status_code,response_size,time\r\n" ++
          String.join (endpoints.map (fun ep => csvLine
            [ep.url, ep.method, ep.protocol, ep.domain, ep.path,
             toString ep.status_code, toString ep.response_size, toString ep.time]))) := by
  have hjson : ((".csv" : String) = ".json") = False := by decide
  simp only [exportEndpoints, h, hjson, if_false, if_pos rfl]
  cases endpoints with
  | nil => rfl
  | cons e es =>
    simp only [List.isEmpty_cons, Bool.false_eq_true, if_false, if_true, List.map_cons,
      List.headD_cons, List.map_map, Function.comp, flatFields_fst, flatFields_snd,
      csvLine_header]
    rfl

/-- Witness for C8: exporting the two sample records and the empty
sequence to `out.csv`. -/
theorem exportEndpoints_csv_projection_witness :
    exportEndpoints exampleLibs [ep1, ep2] "out.csv" =
      .ok (if ([ep1, ep2] : List Endpoint).isEmpty then "No endpoints found"
        else "url,method,protocol,domain,path,status_code,response_size,time\r\n" ++
          String.join ([ep1, ep2].map (fun ep => csvLine
            [ep.url, ep.method, ep.protocol, ep.domain, ep.path,
             toString ep.status_code, toString ep.response_size, toString ep.time]))) :=
  exportEndpoints_csv_projection exampleLibs [ep1, ep2] "out.csv" rfl

/-- Counterexample to C9 as stated: an existing but unreadable source
makes `_load_har_file` propagate the uncaught `PermissionError` of
`open`, which is not the `SourceNotFound` (`FileNotFoundError`) error the
claim requires for unreadable sources. -/
theorem loadHarFile_unreadable_cex :
    isSourceNotFound (loadHarFile exampleLibs "f.har" Source.unreadable) = false ∧
    loadHarFile exampleLibs "f.har" Source.unreadable =
      .error (.permissionError "Permission denied: f.har") :=
  ⟨rfl, rfl⟩

/-- C9 (amended): loading fails with `SourceNotFound` exactly when the
source does not exist (an existing but unreadable source propagates a
distinct permission error instead), fails with `InvalidFormat` exactly
when the content is not syntactically valid JSON, and otherwise returns
the decoded JSON document unchanged. -/
theorem loadHarFile_error_taxonomy (L : PyLibs) (path : String) (src : Source) :
    (isSourceNotFound (loadHarFile L path src) = true ↔ src = Source.absent) ∧
    (isInvalidFormat (loadHarFile L path src) = true ↔
      ∃ s, src = Source.content s ∧ L.jsonLoads s = none) ∧
    (∀ s v, src = Source.content s → L.jsonLoads s = some v →
      loadHarFile L path src = .ok v) := by
  refine ⟨?_, ?_, ?_⟩
  · cases src with
    | absent => simp [loadHarFile, isSourceNotFound]
    | unreadable => simp [loadHarFile, isSourceNotFound]
    | content s =>
      cases hj : L.jsonLoads s <;> simp [loadHarFile, isSourceNotFound, hj]
  · cases src with
    | absent => simp [loadHarFile, isInvalidFormat]
    | unreadable => simp [loadHarFile, isInvalidFormat]
    | content s =>
      cases hj : L.jsonLoads s <;> simp [loadHarFile, isInvalidFormat, hj]
  · intro s v hs hv
    subst hs
    simp [loadHarFile, hv]

/-- Witness for C9 (amended): a readable source containing valid JSON
loads to the decoded document unchanged. -/
theorem loadHarFile_error_taxonomy_witness :
    loadHarFile exampleLibsJson "f.har" (Source.content "null") = .ok Json.null :=
  (loadHarFile_error_taxonomy exampleLibsJson "f.har" (Source.content "null")).2.2
    "null" Json.null rfl rfl
